import Mathlib

/-!
Verification development for the egui-sdl2-renderer painter (`src/lib.rs`).

The embedding models the painter's data model and its three operations
(`update_or_create_texture`, `free_texture`, `paint_and_update_textures`)
as pure Lean functions.  The SDL renderer is modelled by an oracle record
(`Renderer`) saying which fallible renderer calls fail, the canvas by its
clip-rect state, and every renderer interaction is additionally recorded
in an event trace so that ordering properties can be stated.  Rust panics
(`unwrap`, `assert_eq!`) are modelled by a dedicated `Outcome.panic`
constructor, `?`-propagated errors by `Outcome.error`.  `f32` coordinates
of egui clip rects are modelled by rationals, and the `as i32` / `as u32`
casts by saturating truncation toward zero.
-/

namespace EguiSdl2

/-! ## SDL blend-mode model (`SDL_ComposeCustomBlendMode` and friends) -/

/-- Model of `sdl2::sys::SDL_BlendFactor`. -/
inductive SDL_BlendFactor where
  | zero
  | one
  | srcColor
  | oneMinusSrcColor
  | srcAlpha
  | oneMinusSrcAlpha
  | dstColor
  | oneMinusDstColor
  | dstAlpha
  | oneMinusDstAlpha
deriving DecidableEq, Repr

/-- Model of `sdl2::sys::SDL_BlendOperation`. -/
inductive SDL_BlendOperation where
  | add
  | subtract
  | revSubtract
  | minimum
  | maximum
deriving DecidableEq, Repr

/-- A composed custom blend mode: the six constants handed to
`SDL_ComposeCustomBlendMode` (source/destination factor and operation,
separately for the color and the alpha channel). -/
structure BlendMode where
  srcColorFactor : SDL_BlendFactor
  dstColorFactor : SDL_BlendFactor
  colorOperation : SDL_BlendOperation
  srcAlphaFactor : SDL_BlendFactor
  dstAlphaFactor : SDL_BlendFactor
  alphaOperation : SDL_BlendOperation
deriving DecidableEq, Repr

/-- Model of `SDL_ComposeCustomBlendMode`: it packs its six arguments into
a blend-mode descriptor. -/
def SDL_ComposeCustomBlendMode (srcColorFactor dstColorFactor : SDL_BlendFactor)
    (colorOperation : SDL_BlendOperation)
    (srcAlphaFactor dstAlphaFactor : SDL_BlendFactor)
    (alphaOperation : SDL_BlendOperation) : BlendMode :=
  ⟨srcColorFactor, dstColorFactor, colorOperation,
   srcAlphaFactor, dstAlphaFactor, alphaOperation⟩

/-- The blend mode composed in `Painter::update_or_create_texture`
(`src/lib.rs` lines 123-132), with exactly the constants of the source. -/
def eguiBlendMode : BlendMode :=
  SDL_ComposeCustomBlendMode
    .one .oneMinusSrcAlpha .add
    .oneMinusDstAlpha .one .add

/-- SDL semantics of a blend factor, as a multiplier for one channel:
`srcC`/`dstC` are the source/destination value of the channel being
blended and `srcA`/`dstA` the source/destination alpha values. -/
def evalFactor (f : SDL_BlendFactor) (srcC srcA dstC dstA : ℚ) : ℚ :=
  match f with
  | .zero => 0
  | .one => 1
  | .srcColor => srcC
  | .oneMinusSrcColor => 1 - srcC
  | .srcAlpha => srcA
  | .oneMinusSrcAlpha => 1 - srcA
  | .dstColor => dstC
  | .oneMinusDstColor => 1 - dstC
  | .dstAlpha => dstA
  | .oneMinusDstAlpha => 1 - dstA

/-- SDL semantics of a blend operation on the two weighted terms. -/
def evalOp (op : SDL_BlendOperation) (a b : ℚ) : ℚ :=
  match op with
  | .add => a + b
  | .subtract => a - b
  | .revSubtract => b - a
  | .minimum => min a b
  | .maximum => max a b

/-- The value a blend mode computes for one color channel. -/
def blendColor (m : BlendMode) (srcC srcA dstC dstA : ℚ) : ℚ :=
  evalOp m.colorOperation
    (srcC * evalFactor m.srcColorFactor srcC srcA dstC dstA)
    (dstC * evalFactor m.dstColorFactor srcC srcA dstC dstA)

/-- The value a blend mode computes for the alpha channel (for the alpha
channel the blended "color" value is the alpha itself). -/
def blendAlpha (m : BlendMode) (srcA dstA : ℚ) : ℚ :=
  evalOp m.alphaOperation
    (srcA * evalFactor m.srcAlphaFactor srcA srcA dstA dstA)
    (dstA * evalFactor m.dstAlphaFactor srcA srcA dstA dstA)

/-! ## Data model: egui types, SDL types, painter state -/

/-- Model of `egui::TextureId`: an opaque identifier, either engine-managed
or user-minted, each carrying a `u64` (modelled by `Nat`). -/
inductive TextureId where
  | managed (n : Nat)
  | user (n : Nat)
deriving DecidableEq, Repr

/-- Model of `egui::Color32`: one RGBA8 pixel (four byte values). -/
structure Color32 where
  r : Nat
  g : Nat
  b : Nat
  a : Nat
deriving DecidableEq, Repr

/-- Model of `egui::ColorImage`: dimensions plus a flat pixel buffer. -/
structure ColorImage where
  width : Nat
  height : Nat
  pixels : List Color32
deriving DecidableEq, Repr

/-- Model of `egui::epaint::ImageDelta`: the image data and an optional
top-left offset (both `usize` coordinates, hence `Nat`). -/
structure ImageDelta where
  image : ColorImage
  pos : Option (Nat × Nat)
deriving DecidableEq, Repr

/-- Model of `egui::Pos2` (f32 coordinates modelled by rationals). -/
structure Pos2 where
  x : ℚ
  y : ℚ
deriving DecidableEq, Repr

/-- Model of `egui::Rect` (min/max corners with f32 coordinates). -/
structure EguiRect where
  min : Pos2
  max : Pos2
deriving DecidableEq, Repr

/-- Rational subtraction written through `Rat.normalize` so that concrete
instances evaluate by kernel reduction; `ratSub_eq_sub` below proves it
equal to `Sub.sub` on `ℚ`. -/
def ratSub (a b : ℚ) : ℚ :=
  Rat.normalize (a.num * b.den - b.num * a.den) (a.den * b.den)
    (Nat.mul_ne_zero a.den_nz b.den_nz)

/-- Model of `egui::Rect::size()`: `max - min`, componentwise
(`EguiRect.size_eq_sub` below restates it with `Sub.sub`). -/
def EguiRect.size (r : EguiRect) : Pos2 :=
  ⟨ratSub r.max.x r.min.x, ratSub r.max.y r.min.y⟩

/-- Model of `sdl2::rect::Rect`: `i32` position, `u32` size. -/
structure Rect where
  x : Int
  y : Int
  w : Nat
  h : Nat
deriving DecidableEq, Repr

/-- Model of an SDL texture as the painter observes it: its fixed creation
size and the blend mode attached at creation. -/
structure Texture where
  width : Nat
  height : Nat
  blend : BlendMode
deriving DecidableEq, Repr

/-- Model of the painter state: the `textures: HashMap<TextureId, Texture>`
cache, as an association list keyed by `TextureId`. -/
structure Painter where
  textures : List (TextureId × Texture)
deriving DecidableEq, Repr

/-- Model of `Painter::new`: an empty texture cache. -/
def Painter.new : Painter := ⟨[]⟩

/-- Model of `sdl2::render::Canvas` as far as the painter touches it: its
current clip rectangle (`set_clip_rect` state). -/
structure Canvas where
  clip : Option Rect
deriving DecidableEq, Repr

/-- Model of `PainterError` (`src/lib.rs` lines 18-27).  The wrapped SDL
error payloads are modelled by strings. -/
inductive PainterError where
  | sdlRenderGeometryUnsupported
  | sdlError (msg : String)
  | updateTexture (msg : String)
  | createTexture (msg : String)
  | freeInvalidTexture (id : TextureId)
  | paintInvalidTexture (id : TextureId)
  | blendModeNotSupported
deriving DecidableEq, Repr

/-- Outcome of running a fallible, possibly panicking Rust function:
normal return, `?`-propagated error, or panic (`unwrap` / `assert_eq!`). -/
inductive Outcome (α : Type) where
  | ok (a : α)
  | error (e : PainterError)
  | panic (msg : String)
deriving DecidableEq, Repr

/-- Whether an outcome is a panic. -/
def Outcome.isPanic {α : Type} : Outcome α → Bool
  | .panic _ => true
  | _ => false

/-- Oracle for the fallible SDL renderer calls the painter issues: which
of them fail during the run being modelled. -/
structure Renderer where
  createFails : Bool
  blendFails : Bool
  updateFails : Bool
  renderFails : Bool
deriving DecidableEq, Repr

/-- A renderer in which no SDL call fails. -/
def Renderer.allOk : Renderer := ⟨false, false, false, false⟩

/-- Renderer-interaction events, recorded in order of issue. -/
inductive Event where
  | createTex (id : TextureId) (w h : Nat)
  | setBlend (id : TextureId)
  | uploadTex (id : TextureId) (rect : Rect)
  | setClip (rect : Rect)
  | drawMesh (id : TextureId) (clip : Rect)
  | invokeCallback (viewport clip_rect : EguiRect) (pixels_per_point : ℚ)
      (screen_size_px : Nat × Nat)
  | freeTex (id : TextureId)
deriving DecidableEq, Repr

/-! ## Integer conversions and f32 casts -/

/-- Largest `i32` value (`i32::MAX`). -/
def I32_MAX : Nat := 2 ^ 31 - 1

/-- Largest `u32` value (`u32::MAX`). -/
def U32_MAX : Nat := 2 ^ 32 - 1

/-- Model of `usize::try_into() -> i32`: fails above `i32::MAX`. -/
def tryIntoI32 (n : Nat) : Option Int :=
  if n ≤ I32_MAX then some (Int.ofNat n) else none

/-- Model of `usize::try_into() -> u32`: fails above `u32::MAX`. -/
def tryIntoU32 (n : Nat) : Option Nat :=
  if n ≤ U32_MAX then some n else none

/-- Truncation of a rational toward zero, as Rust `as` casts do: the
denominator is positive, so truncating division (`Int.tdiv`) of the
numerator by it truncates the fraction toward zero. -/
def truncQ (q : ℚ) : Int := Int.tdiv q.num q.den

/-- Model of Rust `f32 as i32`: truncate toward zero, saturating. -/
def f32AsI32 (q : ℚ) : Int :=
  max (-(2 ^ 31)) (min ((2 ^ 31) - 1) (truncQ q))

/-- Model of Rust `f32 as u32`: truncate toward zero, saturating at 0 and
`u32::MAX`. -/
def f32AsU32 (q : ℚ) : Nat :=
  (min ((2 ^ 32) - 1) (truncQ q)).toNat

/-- The SDL scissor rectangle computed from an egui clip rect in
`paint_and_update_textures` (`src/lib.rs` lines 212-218). -/
def clipRectToSdl (c : EguiRect) : Rect :=
  ⟨f32AsI32 c.min.x, f32AsI32 c.min.y, f32AsU32 c.size.x, f32AsU32 c.size.y⟩

/-! ## Texture cache primitives -/

/-- Lookup in the texture cache (`HashMap::get` / `Entry` occupancy). -/
def findTexture (ts : List (TextureId × Texture)) (id : TextureId) : Option Texture :=
  (ts.find? (fun p => p.1 == id)).map (fun p => p.2)

/-- Model of `HashMap::remove` on the cache: drop the entry if present,
report whether it was present, leave the map untouched otherwise. -/
def removeTexture (ts : List (TextureId × Texture)) (id : TextureId) :
    Bool × List (TextureId × Texture) :=
  match findTexture ts id with
  | none => (false, ts)
  | some _ => (true, ts.filter (fun p => !(p.1 == id)))

/-- Model of `Painter::free_texture` (`src/lib.rs` lines 188-190):
`self.textures.remove(&id).is_some()`. -/
def free_texture (st : Painter) (id : TextureId) : Bool × Painter :=
  let (present, ts) := removeTexture st.textures id
  (present, ⟨ts⟩)

/-! ## `Painter::update_or_create_texture` -/

/-- Tail of `update_or_create_texture` after the entry step
(`src/lib.rs` lines 160-185): the `assert_eq!` pixel-count check, then
`texture.update(Rect::from((x, y, width, height)), data, pitch)`.  The
painter state `st` passed here already contains the entry for `id`. -/
def upsertWrite (r : Renderer) (st : Painter) (id : TextureId) (delta : ImageDelta)
    (x y : Int) (w h : Nat) (tr : List Event) :
    Outcome Unit × Painter × List Event :=
  if delta.image.width * delta.image.height ≠ delta.image.pixels.length then
    (.panic "Mismatch between texture size and texel count", st, tr)
  else if r.updateFails then
    (.error (.updateTexture "update failed"), st, tr)
  else
    (.ok (), st, tr ++ [.uploadTex id ⟨x, y, w, h⟩])

/-- Model of `Painter::update_or_create_texture` (`src/lib.rs` lines
115-186).  In source order: compose the blend mode (a pure constant
computation), convert `delta.pos` with `try_into().unwrap()` (default
`[0, 0]`), convert the image width and height with
`try_into().unwrap()`, then take the cache entry for `id` — occupied
means update in place, vacant means create the texture, attach the blend
mode (failure returns before the entry is inserted), and insert — and
finally assert the pixel count and upload the delta region. -/
def update_or_create_texture (r : Renderer) (st : Painter) (id : TextureId)
    (delta : ImageDelta) : Outcome Unit × Painter × List Event :=
  match (match delta.pos with
         | some (px, py) =>
           (tryIntoI32 px).bind (fun x => (tryIntoI32 py).map (fun y => (x, y)))
         | none => some ((0 : Int), (0 : Int))) with
  | none => (.panic "called Option::unwrap on a None value", st, [])
  | some (x, y) =>
    match tryIntoU32 delta.image.width with
    | none => (.panic "called Option::unwrap on a None value", st, [])
    | some w =>
      match tryIntoU32 delta.image.height with
      | none => (.panic "called Option::unwrap on a None value", st, [])
      | some h =>
        match findTexture st.textures id with
        | some _ => upsertWrite r st id delta x y w h []
        | none =>
          if r.createFails then
            (.error (.createTexture "create failed"), st, [.createTex id w h])
          else if r.blendFails then
            (.error .blendModeNotSupported, st, [.createTex id w h, .setBlend id])
          else
            upsertWrite r ⟨(id, ⟨w, h, eguiBlendMode⟩) :: st.textures⟩ id delta x y w h
              [.createTex id w h, .setBlend id]

/-! ## Primitives and `Painter::paint_and_update_textures` -/

/-- Model of `egui::epaint::Vertex`: interleaved position, color, UV. -/
structure Vertex where
  pos : Pos2
  color : Color32
  uv : Pos2
deriving DecidableEq, Repr

/-- Model of `egui::epaint::Mesh`: texture id, vertices, indices. -/
structure Mesh where
  texture_id : TextureId
  vertices : List Vertex
  indices : List Nat
deriving DecidableEq, Repr

/-- Model of the type-erased callback payload: either the painter's own
`CallbackFn` (the downcast succeeds) or a value of any other type
belonging to a foreign backend (the downcast fails).  The `tag`
distinguishes individual callbacks. -/
inductive CallbackPayload where
  | callbackFn (tag : Nat)
  | foreign (tag : Nat)
deriving DecidableEq, Repr

/-- Model of `egui::epaint::PaintCallback`: viewport rect plus payload. -/
structure PaintCallback where
  rect : EguiRect
  callback : CallbackPayload
deriving DecidableEq, Repr

/-- Model of `egui::epaint::Primitive`. -/
inductive Primitive where
  | mesh (m : Mesh)
  | callback (c : PaintCallback)
deriving DecidableEq, Repr

/-- Model of `egui::ClippedPrimitive`: clip rect plus primitive. -/
structure ClippedPrimitive where
  clip_rect : EguiRect
  primitive : Primitive
deriving DecidableEq, Repr

/-- Model of `egui::TexturesDelta`: set-entries and free-entries. -/
structure TexturesDelta where
  set : List (TextureId × ImageDelta)
  free : List TextureId
deriving DecidableEq, Repr

/-- First phase of `paint_and_update_textures` (`src/lib.rs` lines
200-202): apply every set-entry via `update_or_create_texture`,
propagating the first failure with `?`. -/
def applySets (r : Renderer) (st : Painter) (sets : List (TextureId × ImageDelta)) :
    Outcome Unit × Painter × List Event :=
  match sets with
  | [] => (.ok (), st, [])
  | (id, d) :: rest =>
    match update_or_create_texture r st id d with
    | (.ok _, st1, tr) =>
      let (o, st2, tr2) := applySets r st1 rest
      (o, st2, tr ++ tr2)
    | (.error e, st1, tr) => (.error e, st1, tr)
    | (.panic m, st1, tr) => (.panic m, st1, tr)

/-- Second phase of `paint_and_update_textures` (`src/lib.rs` lines
204-251): dispatch the clipped primitives in list order.  A mesh first
resolves its texture (`?` on failure), then sets the canvas clip rect,
then issues `render_geometry_raw`; a callback builds the
`PaintCallbackInfo` and invokes the payload when it downcasts to
`CallbackFn`, and is skipped silently otherwise.  The painter state is
only read here (`&self`), never written. -/
def paintPrims (r : Renderer) (st : Painter) (screen_size_px : Nat × Nat)
    (pixels_per_point : ℚ) (canvas : Canvas) (prims : List ClippedPrimitive) :
    Outcome Unit × Canvas × List Event :=
  match prims with
  | [] => (.ok (), canvas, [])
  | p :: rest =>
    match p.primitive with
    | .mesh m =>
      match findTexture st.textures m.texture_id with
      | none => (.error (.paintInvalidTexture m.texture_id), canvas, [])
      | some _ =>
        let sdlClip := clipRectToSdl p.clip_rect
        let canvas1 : Canvas := ⟨some sdlClip⟩
        if r.renderFails then
          (.error (.sdlError "render error"), canvas1, [.setClip sdlClip])
        else
          let (o, c2, tr) := paintPrims r st screen_size_px pixels_per_point canvas1 rest
          (o, c2, .setClip sdlClip :: .drawMesh m.texture_id sdlClip :: tr)
    | .callback pc =>
      match pc.callback with
      | .callbackFn _ =>
        let (o, c2, tr) := paintPrims r st screen_size_px pixels_per_point canvas rest
        (o, c2, .invokeCallback pc.rect p.clip_rect pixels_per_point screen_size_px :: tr)
      | .foreign _ => paintPrims r st screen_size_px pixels_per_point canvas rest

/-- Third phase of `paint_and_update_textures` (`src/lib.rs` lines
253-257): free every free-entry, failing with `FreeInvalidTexture` on
the first identifier `free_texture` reports absent. -/
def applyFrees (st : Painter) (ids : List TextureId) :
    Outcome Unit × Painter × List Event :=
  match ids with
  | [] => (.ok (), st, [])
  | id :: rest =>
    let (present, st1) := free_texture st id
    if present then
      let (o, st2, tr) := applyFrees st1 rest
      (o, st2, .freeTex id :: tr)
    else
      (.error (.freeInvalidTexture id), st1, [])

/-- Model of `Painter::paint_and_update_textures` (`src/lib.rs` lines
192-260): sets, then primitives, then frees; any failure propagates and
skips the remaining phases. -/
def paint_and_update_textures (r : Renderer) (st : Painter) (canvas : Canvas)
    (screen_size_px : Nat × Nat) (pixels_per_point : ℚ)
    (clipped_primitives : List ClippedPrimitive) (textures_delta : TexturesDelta) :
    Outcome Unit × Painter × Canvas × List Event :=
  match applySets r st textures_delta.set with
  | (.ok _, st1, tr1) =>
    match paintPrims r st1 screen_size_px pixels_per_point canvas clipped_primitives with
    | (.ok _, c1, tr2) =>
      let (o, st2, tr3) := applyFrees st1 textures_delta.free
      (o, st2, c1, tr1 ++ tr2 ++ tr3)
    | (.error e, c1, tr2) => (.error e, st1, c1, tr1 ++ tr2)
    | (.panic m, c1, tr2) => (.panic m, st1, c1, tr1 ++ tr2)
  | (.error e, st1, tr1) => (.error e, st1, canvas, tr1)
  | (.panic m, st1, tr1) => (.panic m, st1, canvas, tr1)

/-! ## Derived notions used by the statements -/

/-- All integer conversions in `update_or_create_texture` succeed: the
delta's `pos` coordinates fit `i32` and its image dimensions fit `u32`. -/
def convOk (d : ImageDelta) : Bool :=
  (match d.pos with
   | some (px, py) => decide (px ≤ I32_MAX) && decide (py ≤ I32_MAX)
   | none => true) &&
  decide (d.image.width ≤ U32_MAX) && decide (d.image.height ≤ U32_MAX)

/-- The delta's pixel buffer length differs from `width * height`. -/
def sizeMismatch (d : ImageDelta) : Bool :=
  decide (d.image.width * d.image.height ≠ d.image.pixels.length)

/-- Events issued by the set-phase of a frame (texture creation, blend
attachment, region upload). -/
def Event.isSetPhase : Event → Bool
  | .createTex _ _ _ => true
  | .setBlend _ => true
  | .uploadTex _ _ => true
  | _ => false

/-- Events issued by the primitive-dispatch phase of a frame. -/
def Event.isDispatch : Event → Bool
  | .setClip _ => true
  | .drawMesh _ _ => true
  | .invokeCallback _ _ _ _ => true
  | _ => false

/-- Events issued by the free-phase of a frame. -/
def Event.isFree : Event → Bool
  | .freeTex _ => true
  | _ => false

/-- The renderer events a successfully dispatched primitive produces: a
mesh sets its scissor and draws, a recognized callback is invoked, a
foreign callback produces nothing. -/
def primTrace (screen_size_px : Nat × Nat) (pixels_per_point : ℚ)
    (p : ClippedPrimitive) : List Event :=
  match p.primitive with
  | .mesh m =>
    [.setClip (clipRectToSdl p.clip_rect),
     .drawMesh m.texture_id (clipRectToSdl p.clip_rect)]
  | .callback pc =>
    match pc.callback with
    | .callbackFn _ =>
      [.invokeCallback pc.rect p.clip_rect pixels_per_point screen_size_px]
    | .foreign _ => []

/-- The canvas clip state after the scissor updates of a primitive list:
each mesh overwrites the clip rect, callbacks leave it alone. -/
def applyClips : Canvas → List ClippedPrimitive → Canvas
  | canvas, [] => canvas
  | canvas, p :: rest =>
    match p.primitive with
    | .mesh _ => applyClips ⟨some (clipRectToSdl p.clip_rect)⟩ rest
    | .callback _ => applyClips canvas rest

/-- The scissor rectangle of the last mesh primitive of the list, if any. -/
def lastMeshClip : List ClippedPrimitive → Option Rect
  | [] => none
  | p :: rest =>
    match lastMeshClip rest with
    | some rc => some rc
    | none =>
      match p.primitive with
      | .mesh _ => some (clipRectToSdl p.clip_rect)
      | .callback _ => none

/-- Index and texture identifier of the first mesh primitive whose texture
is absent from the given painter's cache. -/
def firstUnknownTexture (st : Painter) : List ClippedPrimitive → Option (Nat × TextureId)
  | [] => none
  | p :: rest =>
    match p.primitive with
    | .mesh m =>
      match findTexture st.textures m.texture_id with
      | none => some (0, m.texture_id)
      | some _ => (firstUnknownTexture st rest).map (fun q => (q.1 + 1, q.2))
    | .callback _ => (firstUnknownTexture st rest).map (fun q => (q.1 + 1, q.2))

/-- Painter states reachable through the painter's public operations,
starting from `Painter::new`. -/
inductive Reachable : Painter → Prop where
  | new : Reachable Painter.new
  | upsert (r : Renderer) (id : TextureId) (delta : ImageDelta) {st : Painter} :
      Reachable st → Reachable (update_or_create_texture r st id delta).2.1
  | free (id : TextureId) {st : Painter} :
      Reachable st → Reachable (free_texture st id).2
  | paint (r : Renderer) (canvas : Canvas) (screen_size_px : Nat × Nat)
      (pixels_per_point : ℚ) (prims : List ClippedPrimitive)
      (delta : TexturesDelta) {st : Painter} :
      Reachable st →
      Reachable (paint_and_update_textures r st canvas screen_size_px
        pixels_per_point prims delta).2.1

end EguiSdl2

namespace EguiSdl2

/-- C1: the custom blend mode attached to every texture computes
`dst.rgb = src.rgb·1 + dst.rgb·(1−src.a)` for every color channel and
`dst.a = src.a·1 + dst.a·(1−src.a)` for the alpha channel, for all
source/destination color and alpha values. -/
theorem eguiBlendMode_is_alpha_over (srcC srcA dstC dstA : ℚ) :
    blendColor eguiBlendMode srcC srcA dstC dstA = srcC * 1 + dstC * (1 - srcA) ∧
    blendAlpha eguiBlendMode srcA dstA = srcA * 1 + dstA * (1 - srcA) := by
  constructor
  · simp [blendColor, eguiBlendMode, SDL_ComposeCustomBlendMode, evalFactor, evalOp]
  · simp [blendAlpha, eguiBlendMode, SDL_ComposeCustomBlendMode, evalFactor, evalOp]
    ring

/-- The executable subtraction used by the embedding is subtraction. -/
theorem ratSub_eq_sub (a b : ℚ) : ratSub a b = a - b :=
  (Rat.sub_def a b).symm

/-- `EguiRect.size` is `max - min`, componentwise. -/
theorem EguiRect.size_eq_sub (r : EguiRect) :
    r.size = ⟨r.max.x - r.min.x, r.max.y - r.min.y⟩ := by
  simp [EguiRect.size, ratSub_eq_sub]

/-- Looking up a key just inserted at the head of the cache finds it. -/
theorem findTexture_cons_self (ts : List (TextureId × Texture)) (id : TextureId)
    (t : Texture) : findTexture ((id, t) :: ts) id = some t := by
  simp [findTexture, List.find?_cons]

/-- C2 counterexample: with a renderer whose region upload fails, upserting
a well-formed 1×1 delta under a fresh identifier returns an error, yet the
freshly created entry is reachable in the cache under that identifier —
refuting the claim that a failed creation inserts no entry. -/
theorem upsert_upload_failure_leaves_entry_cex :
    (update_or_create_texture ⟨false, false, true, false⟩ Painter.new (.managed 0)
        ⟨⟨1, 1, [⟨0, 0, 0, 0⟩]⟩, none⟩).1 = .error (.updateTexture "update failed") ∧
    (findTexture (update_or_create_texture ⟨false, false, true, false⟩ Painter.new
        (.managed 0) ⟨⟨1, 1, [⟨0, 0, 0, 0⟩]⟩, none⟩).2.1.textures
      (.managed 0)).isSome = true := by
  decide

/-- C2 (amended): when upserting a fresh identifier returns an error, the
identifier is reachable in the cache afterwards exactly when the error is
the region-upload error: allocation and blend-mode failures insert no
entry, but an upload failure happens after the entry was inserted and
leaves it in the cache. -/
theorem upsert_error_entry_iff_upload_error (r : Renderer) (st : Painter)
    (id : TextureId) (delta : ImageDelta) (e : PainterError)
    (hfresh : findTexture st.textures id = none)
    (herr : (update_or_create_texture r st id delta).1 = .error e) :
    ((findTexture (update_or_create_texture r st id delta).2.1.textures id).isSome = true
      ↔ e = .updateTexture "update failed") := by
  revert herr
  unfold update_or_create_texture upsertWrite
  rw [hfresh]
  repeat' split
  all_goals intro herr
  all_goals simp_all [findTexture_cons_self]
  all_goals subst herr
  all_goals simp

/-- C2 witness: a concrete application of the amended theorem, at a fresh
identifier with a failing allocation: the error is `CreateTexture` and no
entry is inserted. -/
theorem upsert_error_entry_iff_upload_error_witness :
    ((findTexture (update_or_create_texture ⟨true, false, false, false⟩ Painter.new
        (.user 5) ⟨⟨1, 1, [⟨0, 0, 0, 0⟩]⟩, none⟩).2.1.textures (.user 5)).isSome = true
      ↔ PainterError.createTexture "create failed" = .updateTexture "update failed") :=
  upsert_error_entry_iff_upload_error ⟨true, false, false, false⟩ Painter.new
    (.user 5) ⟨⟨1, 1, [⟨0, 0, 0, 0⟩]⟩, none⟩ (.createTexture "create failed")
    (by decide) (by decide)

/-- C9 counterexample: a delta whose pixel count (2) mismatches its 1×1
size, upserted under a fresh identifier against a renderer whose texture
allocation fails, returns the `CreateTexture` error value — it does not
abort: the creation failure propagates before the `assert_eq!` runs. -/
theorem upsert_mismatch_error_not_panic_cex :
    (update_or_create_texture ⟨true, false, false, false⟩ Painter.new (.managed 0)
        ⟨⟨1, 1, [⟨0, 0, 0, 0⟩, ⟨0, 0, 0, 0⟩]⟩, none⟩).1
      = .error (.createTexture "create failed") ∧
    sizeMismatch ⟨⟨1, 1, [⟨0, 0, 0, 0⟩, ⟨0, 0, 0, 0⟩]⟩, none⟩ = true := by
  decide

/-- C9 (amended): `update_or_create_texture` panics exactly when a
coordinate or dimension conversion fails, or when the pixel count
mismatches the image size and control reaches the `assert_eq!` — that is,
the identifier is already cached, or allocation and blend-mode attachment
both succeed.  In particular no panic fires on a well-formed delta, and a
mismatched delta panics unless a creation failure surfaces first. -/
theorem upsert_panic_characterization (r : Renderer) (st : Painter) (id : TextureId)
    (d : ImageDelta) :
    (update_or_create_texture r st id d).1.isPanic =
      (!convOk d ||
        (sizeMismatch d &&
          ((findTexture st.textures id).isSome || (!r.createFails && !r.blendFails)))) := by
  obtain ⟨⟨w, h, pixels⟩, pos⟩ := d
  cases pos with
  | none =>
    unfold update_or_create_texture upsertWrite
    simp only [convOk, sizeMismatch, tryIntoI32, tryIntoU32]
    repeat' split
    all_goals simp_all [Outcome.isPanic]
    all_goals omega
  | some xy =>
    obtain ⟨px, py⟩ := xy
    by_cases hpx : px ≤ I32_MAX <;> by_cases hpy : py ≤ I32_MAX <;>
      (unfold update_or_create_texture upsertWrite
       simp only [convOk, sizeMismatch, tryIntoI32, tryIntoU32, hpx, hpy,
         if_true, if_false, decide_True, decide_False, eq_self_iff_true,
         Option.bind_some, Option.bind_none, Option.map_some, Option.map_none]
       repeat' split
       all_goals simp_all [Outcome.isPanic]
       all_goals omega)

/-- C7: processing a free-entry for an identifier not present in the cache
fails with `FreeInvalidTexture` naming that identifier and leaves the
cache exactly as it was: at the `free_texture` level, in the free-phase,
and for a whole paint call whose delta frees that identifier. -/
theorem free_absent_fails_cache_unmodified (st : Painter) (id : TextureId)
    (rest : List TextureId) (r : Renderer) (canvas : Canvas)
    (screen_size_px : Nat × Nat) (pixels_per_point : ℚ)
    (habsent : findTexture st.textures id = none) :
    free_texture st id = (false, st) ∧
    applyFrees st (id :: rest) = (.error (.freeInvalidTexture id), st, []) ∧
    paint_and_update_textures r st canvas screen_size_px pixels_per_point []
        ⟨[], id :: rest⟩ =
      (.error (.freeInvalidTexture id), st, canvas, []) := by
  have h1 : free_texture st id = (false, st) := by
    simp [free_texture, removeTexture, habsent]
  have h2 : applyFrees st (id :: rest) = (.error (.freeInvalidTexture id), st, []) := by
    simp [applyFrees, h1]
  refine ⟨h1, h2, ?_⟩
  simp [paint_and_update_textures, applySets, paintPrims, h2]

/-- C7 witness: freeing the never-created identifier 3 on a fresh painter
fails with `FreeInvalidTexture 3` and leaves the empty cache unchanged. -/
theorem free_absent_fails_cache_unmodified_witness :
    free_texture Painter.new (.user 3) = (false, Painter.new) ∧
    applyFrees Painter.new [.user 3] =
      (.error (.freeInvalidTexture (.user 3)), Painter.new, []) ∧
    paint_and_update_textures Renderer.allOk Painter.new ⟨none⟩ (8, 8) 1 []
        ⟨[], [.user 3]⟩ =
      (.error (.freeInvalidTexture (.user 3)), Painter.new, ⟨none⟩, []) :=
  free_absent_fails_cache_unmodified Painter.new (.user 3) [] Renderer.allOk
    ⟨none⟩ (8, 8) 1 (by decide)

/-- C8: a callback primitive whose payload does not downcast to the
painter's `CallbackFn` is skipped without error: dispatching any
primitive list containing it yields exactly the outcome, final canvas
and renderer events of the same list with it removed, so dispatch
continues with the subsequent primitives. -/
theorem foreign_callback_skipped (r : Renderer) (st : Painter)
    (screen_size_px : Nat × Nat) (pixels_per_point : ℚ) (canvas : Canvas)
    (pre post : List ClippedPrimitive) (clip vrect : EguiRect) (tag : Nat) :
    paintPrims r st screen_size_px pixels_per_point canvas
      (pre ++ ⟨clip, .callback ⟨vrect, .foreign tag⟩⟩ :: post) =
    paintPrims r st screen_size_px pixels_per_point canvas (pre ++ post) := by
  induction pre generalizing canvas with
  | nil => simp [paintPrims]
  | cons p rest ih =>
    simp only [List.cons_append, paintPrims]
    cases hp : p.primitive with
    | mesh m =>
      cases hf : findTexture st.textures m.texture_id with
      | none => simp [hf]
      | some t =>
        by_cases hr : r.renderFails <;> simp [hf, hr, ih]
    | callback pc =>
      cases hc : pc.callback with
      | callbackFn tag2 => simp [ih]
      | foreign tag2 => simp [ih]

/-- A dispatch in which every primitive succeeds issues, per primitive in
order, exactly the events of `primTrace`, and leaves the canvas clip state
described by `applyClips`. -/
theorem paintPrims_ok_spec (r : Renderer) (st : Painter) (scr : Nat × Nat)
    (ppp : ℚ) :
    ∀ (prims : List ClippedPrimitive) (canvas : Canvas),
      (paintPrims r st scr ppp canvas prims).1 = .ok () →
      (paintPrims r st scr ppp canvas prims).2.2 =
        (prims.map (primTrace scr ppp)).flatten ∧
      (paintPrims r st scr ppp canvas prims).2.1 = applyClips canvas prims := by
  intro prims
  induction prims with
  | nil =>
    intro canvas _
    simp [paintPrims, applyClips]
  | cons p rest ih =>
    intro canvas hok
    cases hp : p.primitive with
    | mesh m =>
      cases hf : findTexture st.textures m.texture_id with
      | none => simp [paintPrims, hp, hf] at hok
      | some t =>
        by_cases hr : r.renderFails = true
        · simp [paintPrims, hp, hf, hr] at hok
        · have hok2 : (paintPrims r st scr ppp
              ⟨some (clipRectToSdl p.clip_rect)⟩ rest).1 = .ok () := by
            simpa [paintPrims, hp, hf, hr] using hok
          obtain ⟨htr, hcv⟩ := ih ⟨some (clipRectToSdl p.clip_rect)⟩ hok2
          simp [paintPrims, hp, hf, hr, htr, hcv, applyClips, primTrace]
    | callback pc =>
      cases hc : pc.callback with
      | callbackFn tag =>
        have hok2 : (paintPrims r st scr ppp canvas rest).1 = .ok () := by
          simpa [paintPrims, hp, hc] using hok
        obtain ⟨htr, hcv⟩ := ih canvas hok2
        simp [paintPrims, hp, hc, htr, hcv, applyClips, primTrace]
      | foreign tag =>
        have hok2 : (paintPrims r st scr ppp canvas rest).1 = .ok () := by
          simpa [paintPrims, hp, hc] using hok
        obtain ⟨htr, hcv⟩ := ih canvas hok2
        simp [paintPrims, hp, hc, htr, hcv, applyClips, primTrace]

/-- C3 counterexample: dispatching a mesh (clip rect (0,0)-(4,4)) followed
by a recognized callback (clip rect (1,1)-(3,3)) issues no scissor update
for the callback: the full event list holds a single `setClip`, with the
mesh's rectangle, so the mesh's scissor — distinct from the callback's
clip rect — is still applied to the render target when the callback is
invoked, and it remains in effect afterwards. -/
theorem callback_scissor_not_applied_cex :
    (paintPrims Renderer.allOk ⟨[(.managed 0, ⟨1, 1, eguiBlendMode⟩)]⟩ (8, 8) 1 ⟨none⟩
        [⟨⟨⟨0, 0⟩, ⟨4, 4⟩⟩, .mesh ⟨.managed 0, [], []⟩⟩,
         ⟨⟨⟨1, 1⟩, ⟨3, 3⟩⟩, .callback ⟨⟨⟨0, 0⟩, ⟨8, 8⟩⟩, .callbackFn 0⟩⟩] =
      (.ok (), ⟨some ⟨0, 0, 4, 4⟩⟩,
        [.setClip ⟨0, 0, 4, 4⟩, .drawMesh (.managed 0) ⟨0, 0, 4, 4⟩,
         .invokeCallback ⟨⟨0, 0⟩, ⟨8, 8⟩⟩ ⟨⟨1, 1⟩, ⟨3, 3⟩⟩ 1 (8, 8)])) ∧
    clipRectToSdl ⟨⟨1, 1⟩, ⟨3, 3⟩⟩ ≠ ⟨0, 0, 4, 4⟩ := by
  decide

/-- C3 (amended): in a successful dispatch every mesh primitive has its
scissor rectangle computed from its own clip rect and applied immediately
before its draw, while callback primitives receive no scissor update of
their own — so a mesh's scissor remains in effect for subsequent
callbacks, and the final canvas clip is the scissor of the last mesh (or
the incoming clip state when no mesh was drawn), not a reset value. -/
theorem scissor_per_mesh_not_per_callback (r : Renderer) (st : Painter)
    (scr : Nat × Nat) (ppp : ℚ) (canvas : Canvas)
    (prims : List ClippedPrimitive)
    (hok : (paintPrims r st scr ppp canvas prims).1 = .ok ()) :
    (paintPrims r st scr ppp canvas prims).2.2 =
      (prims.map (primTrace scr ppp)).flatten ∧
    (paintPrims r st scr ppp canvas prims).2.1 = applyClips canvas prims :=
  paintPrims_ok_spec r st scr ppp prims canvas hok

/-- C3 witness: the amended theorem applied to a concrete mesh-then-
callback dispatch. -/
theorem scissor_per_mesh_not_per_callback_witness :
    (paintPrims Renderer.allOk ⟨[(.user 7, ⟨1, 1, eguiBlendMode⟩)]⟩ (8, 8) 1 ⟨none⟩
        [⟨⟨⟨0, 0⟩, ⟨2, 2⟩⟩, .mesh ⟨.user 7, [], []⟩⟩,
         ⟨⟨⟨0, 0⟩, ⟨1, 1⟩⟩, .callback ⟨⟨⟨0, 0⟩, ⟨8, 8⟩⟩, .callbackFn 1⟩⟩]).2.2 =
      ([⟨⟨⟨0, 0⟩, ⟨2, 2⟩⟩, .mesh ⟨.user 7, [], []⟩⟩,
        ⟨⟨⟨0, 0⟩, ⟨1, 1⟩⟩, .callback ⟨⟨⟨0, 0⟩, ⟨8, 8⟩⟩, .callbackFn 1⟩⟩].map
          (primTrace (8, 8) 1)).flatten ∧
    (paintPrims Renderer.allOk ⟨[(.user 7, ⟨1, 1, eguiBlendMode⟩)]⟩ (8, 8) 1 ⟨none⟩
        [⟨⟨⟨0, 0⟩, ⟨2, 2⟩⟩, .mesh ⟨.user 7, [], []⟩⟩,
         ⟨⟨⟨0, 0⟩, ⟨1, 1⟩⟩, .callback ⟨⟨⟨0, 0⟩, ⟨8, 8⟩⟩, .callbackFn 1⟩⟩]).2.1 =
      applyClips ⟨none⟩
        [⟨⟨⟨0, 0⟩, ⟨2, 2⟩⟩, .mesh ⟨.user 7, [], []⟩⟩,
         ⟨⟨⟨0, 0⟩, ⟨1, 1⟩⟩, .callback ⟨⟨⟨0, 0⟩, ⟨8, 8⟩⟩, .callbackFn 1⟩⟩] :=
  scissor_per_mesh_not_per_callback Renderer.allOk
    ⟨[(.user 7, ⟨1, 1, eguiBlendMode⟩)]⟩ (8, 8) 1 ⟨none⟩
    [⟨⟨⟨0, 0⟩, ⟨2, 2⟩⟩, .mesh ⟨.user 7, [], []⟩⟩,
     ⟨⟨⟨0, 0⟩, ⟨1, 1⟩⟩, .callback ⟨⟨⟨0, 0⟩, ⟨8, 8⟩⟩, .callbackFn 1⟩⟩]
    (by decide)

/-- The clip state a primitive list leaves behind is the scissor of its
last mesh, or the incoming state when the list has no mesh. -/
theorem applyClips_eq_lastMeshClip :
    ∀ (prims : List ClippedPrimitive) (canvas : Canvas),
      applyClips canvas prims =
        match lastMeshClip prims with
        | some rc => ⟨some rc⟩
        | none => canvas := by
  intro prims
  induction prims with
  | nil => intro canvas; simp [applyClips, lastMeshClip]
  | cons p rest ih =>
    intro canvas
    cases hp : p.primitive with
    | mesh m =>
      cases hl : lastMeshClip rest with
      | none => simp [applyClips, lastMeshClip, hp, hl, ih]
      | some rc => simp [applyClips, lastMeshClip, hp, hl, ih]
    | callback pc =>
      cases hl : lastMeshClip rest with
      | none => simp [applyClips, lastMeshClip, hp, hl, ih]
      | some rc => simp [applyClips, lastMeshClip, hp, hl, ih]

/-- C10: a successful paint call never restores or clears the canvas clip
rect: when the primitive list drew at least one mesh, the canvas the call
returns still carries the scissor rectangle of the last mesh primitive,
visible to the caller's subsequent rendering. -/
theorem paint_clip_persists_after_return (r : Renderer) (st : Painter)
    (canvas : Canvas) (screen_size_px : Nat × Nat) (pixels_per_point : ℚ)
    (prims : List ClippedPrimitive) (delta : TexturesDelta) (rc : Rect)
    (hok : (paint_and_update_textures r st canvas screen_size_px pixels_per_point
        prims delta).1 = .ok ())
    (hlast : lastMeshClip prims = some rc) :
    (paint_and_update_textures r st canvas screen_size_px pixels_per_point
        prims delta).2.2.1 = ⟨some rc⟩ := by
  unfold paint_and_update_textures at hok ⊢
  rcases hs : applySets r st delta.set with ⟨o1, st1, tr1⟩
  rw [hs] at hok
  cases o1 with
  | error e => simp at hok
  | panic m => simp at hok
  | ok u =>
    simp only [] at hok ⊢
    rcases hpp : paintPrims r st1 screen_size_px pixels_per_point canvas prims
      with ⟨o2, c1, tr2⟩
    rw [hpp] at hok
    cases o2 with
    | error e => simp at hok
    | panic m => simp at hok
    | ok u2 =>
      have h1 : (paintPrims r st1 screen_size_px pixels_per_point canvas prims).1
          = .ok () := by
        rw [hpp]
      have h2 := (paintPrims_ok_spec r st1 screen_size_px pixels_per_point
        prims canvas h1).2
      rw [hpp] at h2
      have h4 : applyClips canvas prims = ⟨some rc⟩ := by
        rw [applyClips_eq_lastMeshClip prims canvas, hlast]
      simp only at h2
      simp [h2, h4]

/-- C10 witness: after a concrete paint call drawing one mesh (clip rect
(0,0)-(5,5)), the returned canvas still carries the scissor ⟨0,0,5,5⟩. -/
theorem paint_clip_persists_after_return_witness :
    (paint_and_update_textures Renderer.allOk ⟨[(.managed 2, ⟨1, 1, eguiBlendMode⟩)]⟩
        ⟨none⟩ (8, 8) 1 [⟨⟨⟨0, 0⟩, ⟨5, 5⟩⟩, .mesh ⟨.managed 2, [], []⟩⟩]
        ⟨[], []⟩).2.2.1 = ⟨some ⟨0, 0, 5, 5⟩⟩ :=
  paint_clip_persists_after_return Renderer.allOk
    ⟨[(.managed 2, ⟨1, 1, eguiBlendMode⟩)]⟩ ⟨none⟩ (8, 8) 1
    [⟨⟨⟨0, 0⟩, ⟨5, 5⟩⟩, .mesh ⟨.managed 2, [], []⟩⟩] ⟨[], []⟩ ⟨0, 0, 5, 5⟩
    (by decide) (by decide)

/-- Every event recorded by `update_or_create_texture` is a set-phase
event (creation, blend attachment or upload). -/
theorem upsert_events_setPhase (r : Renderer) (st : Painter) (id : TextureId)
    (d : ImageDelta) :
    ∀ e ∈ (update_or_create_texture r st id d).2.2, e.isSetPhase = true := by
  unfold update_or_create_texture upsertWrite
  repeat' split
  all_goals simp [Event.isSetPhase]

/-- Every event recorded by the set-phase is a set-phase event. -/
theorem applySets_events_setPhase (r : Renderer) :
    ∀ (sets : List (TextureId × ImageDelta)) (st : Painter),
      ∀ e ∈ (applySets r st sets).2.2, e.isSetPhase = true := by
  intro sets
  induction sets with
  | nil => intro st e he; simp [applySets] at he
  | cons p rest ih =>
    intro st e he
    obtain ⟨id, d⟩ := p
    simp only [applySets] at he
    rcases hu : update_or_create_texture r st id d with ⟨o1, st1, tr1⟩
    rw [hu] at he
    have hu1 : ∀ x ∈ tr1, Event.isSetPhase x = true := by
      have := upsert_events_setPhase r st id d
      rw [hu] at this; exact this
    cases o1 with
    | error e1 => exact hu1 e he
    | panic m => exact hu1 e he
    | ok u =>
      simp only [List.mem_append] at he
      rcases he with he | he
      · exact hu1 e he
      · exact ih st1 e he

/-- Every event recorded by primitive dispatch is a dispatch event
(scissor update, mesh draw, callback invocation). -/
theorem paintPrims_events_dispatch (r : Renderer) (st : Painter)
    (scr : Nat × Nat) (ppp : ℚ) :
    ∀ (prims : List ClippedPrimitive) (canvas : Canvas),
      ∀ e ∈ (paintPrims r st scr ppp canvas prims).2.2, e.isDispatch = true := by
  intro prims
  induction prims with
  | nil => intro canvas e he; simp [paintPrims] at he
  | cons p rest ih =>
    intro canvas e he
    cases hp : p.primitive with
    | mesh m =>
      cases hf : findTexture st.textures m.texture_id with
      | none => simp [paintPrims, hp, hf] at he
      | some t =>
        by_cases hr : r.renderFails = true
        · simp [paintPrims, hp, hf, hr] at he
          subst he
          simp [Event.isDispatch]
        · simp [paintPrims, hp, hf, hr] at he
          rcases he with rfl | rfl | he
          · simp [Event.isDispatch]
          · simp [Event.isDispatch]
          · exact ih _ e he
    | callback pc =>
      cases hc : pc.callback with
      | callbackFn tag =>
        simp only [paintPrims, hp, hc, List.mem_cons] at he
        rcases he with rfl | he
        · simp [Event.isDispatch]
        · exact ih canvas e he
      | foreign tag =>
        simp only [paintPrims, hp, hc] at he
        exact ih canvas e he

/-- Every event recorded by the free-phase is a free event. -/
theorem applyFrees_events_free :
    ∀ (ids : List TextureId) (st : Painter),
      ∀ e ∈ (applyFrees st ids).2.2, e.isFree = true := by
  intro ids
  induction ids with
  | nil => intro st e he; simp [applyFrees] at he
  | cons id rest ih =>
    intro st e he
    simp only [applyFrees] at he
    by_cases hp : (free_texture st id).1 = true
    · simp only [hp, if_true, List.mem_cons] at he
      rcases he with rfl | he
      · simp [Event.isFree]
      · exact ih _ e he
    · simp only [hp, if_false] at he
      simp at he

/-- C5: in every paint call the event trace splits into set-phase events,
then dispatch events, then free events — all set-entries are applied
before any primitive is dispatched and no free-entry is applied until
every primitive has been dispatched; concretely, for two meshes using a
texture freed in the same frame, both meshes draw and the texture is
freed only after both draws. -/
theorem paint_phase_order_and_deferred_free :
    (∀ (r : Renderer) (st : Painter) (canvas : Canvas) (scr : Nat × Nat)
        (ppp : ℚ) (prims : List ClippedPrimitive) (delta : TexturesDelta),
      ∃ t1 t2 t3,
        (paint_and_update_textures r st canvas scr ppp prims delta).2.2.2 =
          t1 ++ t2 ++ t3 ∧
        (∀ e ∈ t1, e.isSetPhase = true) ∧
        (∀ e ∈ t2, e.isDispatch = true) ∧
        (∀ e ∈ t3, e.isFree = true)) ∧
    paint_and_update_textures Renderer.allOk ⟨[(.managed 1, ⟨1, 1, eguiBlendMode⟩)]⟩
        ⟨none⟩ (8, 8) 1
        [⟨⟨⟨0, 0⟩, ⟨4, 4⟩⟩, .mesh ⟨.managed 1, [], []⟩⟩,
         ⟨⟨⟨0, 0⟩, ⟨2, 2⟩⟩, .mesh ⟨.managed 1, [], []⟩⟩]
        ⟨[], [.managed 1]⟩ =
      (.ok (), ⟨[]⟩, ⟨some ⟨0, 0, 2, 2⟩⟩,
       [.setClip ⟨0, 0, 4, 4⟩, .drawMesh (.managed 1) ⟨0, 0, 4, 4⟩,
        .setClip ⟨0, 0, 2, 2⟩, .drawMesh (.managed 1) ⟨0, 0, 2, 2⟩,
        .freeTex (.managed 1)]) := by
  constructor
  · intro r st canvas scr ppp prims delta
    unfold paint_and_update_textures
    rcases hs : applySets r st delta.set with ⟨o1, st1, tr1⟩
    have ht1 : ∀ e ∈ tr1, e.isSetPhase = true := by
      have := applySets_events_setPhase r delta.set st
      rw [hs] at this; exact this
    cases o1 with
    | error e1 => exact ⟨tr1, [], [], by simp, ht1, by simp, by simp⟩
    | panic m => exact ⟨tr1, [], [], by simp, ht1, by simp, by simp⟩
    | ok u =>
      simp only []
      rcases hpp : paintPrims r st1 scr ppp canvas prims with ⟨o2, c1, tr2⟩
      have ht2 : ∀ e ∈ tr2, e.isDispatch = true := by
        have := paintPrims_events_dispatch r st1 scr ppp prims canvas
        rw [hpp] at this; exact this
      cases o2 with
      | error e2 => exact ⟨tr1, tr2, [], by simp, ht1, ht2, by simp⟩
      | panic m => exact ⟨tr1, tr2, [], by simp, ht1, ht2, by simp⟩
      | ok u2 =>
        simp only []
        rcases hf : applyFrees st1 delta.free with ⟨o3, st2, tr3⟩
        have ht3 : ∀ e ∈ tr3, e.isFree = true := by
          have := applyFrees_events_free delta.free st1
          rw [hf] at this; exact this
        exact ⟨tr1, tr2, tr3, by simp, ht1, ht2, ht3⟩
  · decide

/-- When the renderer's draw calls succeed, dispatch stops at the first
mesh whose texture is unknown: it fails with `PaintInvalidTexture` naming
that texture, having processed exactly the primitives before it (their
scissor updates and events), and sets no scissor for the failing mesh. -/
theorem paintPrims_first_unknown (r : Renderer) (st : Painter) (scr : Nat × Nat)
    (ppp : ℚ) (hr : r.renderFails = false) :
    ∀ (prims : List ClippedPrimitive) (canvas : Canvas) (i : Nat) (tid : TextureId),
      firstUnknownTexture st prims = some (i, tid) →
      paintPrims r st scr ppp canvas prims =
        (.error (.paintInvalidTexture tid), applyClips canvas (prims.take i),
         ((prims.take i).map (primTrace scr ppp)).flatten) := by
  intro prims
  induction prims with
  | nil => intro canvas i tid h; simp [firstUnknownTexture] at h
  | cons p rest ih =>
    intro canvas i tid h
    cases hp : p.primitive with
    | mesh m =>
      cases hf : findTexture st.textures m.texture_id with
      | none =>
        simp [firstUnknownTexture, hp, hf] at h
        obtain ⟨rfl, rfl⟩ := h
        simp [paintPrims, hp, hf, applyClips]
      | some t =>
        rcases hrest : firstUnknownTexture st rest with _ | ⟨j, tid2⟩
        · simp [firstUnknownTexture, hp, hf, hrest] at h
        · simp [firstUnknownTexture, hp, hf, hrest] at h
          obtain ⟨rfl, rfl⟩ := h
          have hrec := ih ⟨some (clipRectToSdl p.clip_rect)⟩ j tid2 hrest
          simp [paintPrims, hp, hf, hr, hrec, applyClips, primTrace]
    | callback pc =>
      rcases hrest : firstUnknownTexture st rest with _ | ⟨j, tid2⟩
      · simp [firstUnknownTexture, hp, hrest] at h
      · simp [firstUnknownTexture, hp, hrest] at h
        obtain ⟨rfl, rfl⟩ := h
        have hrec := ih canvas j tid2 hrest
        cases hc : pc.callback with
        | callbackFn tag => simp [paintPrims, hp, hc, hrec, applyClips, primTrace]
        | foreign tag => simp [paintPrims, hp, hc, hrec, applyClips, primTrace]

/-- C6: when the renderer's draw calls succeed and some mesh references a
texture absent from the cache left by the set-phase, the paint call fails
with `PaintInvalidTexture` naming the first such texture; the returned
painter is exactly the post-set-phase painter — the failing dispatch did
not mutate the texture cache — and the recorded dispatch events are
exactly those of the primitives before the failing mesh, so no draw call
is issued for any primitive after it. -/
theorem paint_unknown_texture_fails (r : Renderer) (st : Painter) (canvas : Canvas)
    (scr : Nat × Nat) (ppp : ℚ) (prims : List ClippedPrimitive)
    (delta : TexturesDelta) (st1 : Painter) (tr1 : List Event) (i : Nat)
    (tid : TextureId) (hr : r.renderFails = false)
    (hs : applySets r st delta.set = (.ok (), st1, tr1))
    (hfind : firstUnknownTexture st1 prims = some (i, tid)) :
    paint_and_update_textures r st canvas scr ppp prims delta =
      (.error (.paintInvalidTexture tid), st1,
       applyClips canvas (prims.take i),
       tr1 ++ ((prims.take i).map (primTrace scr ppp)).flatten) := by
  unfold paint_and_update_textures
  rw [hs]
  simp only []
  rw [paintPrims_first_unknown r st1 scr ppp hr prims canvas i tid hfind]

/-- C6 witness: painting `[mesh using texture 99]` with an empty delta on
a fresh painter fails with `PaintInvalidTexture 99`, leaves the cache
empty and issues no renderer event. -/
theorem paint_unknown_texture_fails_witness :
    paint_and_update_textures Renderer.allOk Painter.new ⟨none⟩ (8, 8) 1
        [⟨⟨⟨0, 0⟩, ⟨4, 4⟩⟩, .mesh ⟨.user 99, [], []⟩⟩] ⟨[], []⟩ =
      (.error (.paintInvalidTexture (.user 99)), Painter.new, ⟨none⟩, []) := by
  simpa using paint_unknown_texture_fails Renderer.allOk Painter.new ⟨none⟩ (8, 8) 1
    [⟨⟨⟨0, 0⟩, ⟨4, 4⟩⟩, .mesh ⟨.user 99, [], []⟩⟩] ⟨[], []⟩ Painter.new [] 0
    (.user 99) rfl rfl (by decide)

/-- Any cache entry after an upsert was already present before it, or is
the fresh entry carrying the composed blend mode. -/
theorem upsert_mem_blend (r : Renderer) (st : Painter) (id : TextureId)
    (d : ImageDelta) :
    ∀ p ∈ (update_or_create_texture r st id d).2.1.textures,
      p ∈ st.textures ∨ p.2.blend = eguiBlendMode := by
  unfold update_or_create_texture upsertWrite
  repeat' split
  all_goals intro p hp
  all_goals simp only [List.mem_cons] at hp
  all_goals first
    | exact Or.inl hp
    | (rcases hp with rfl | hp2
       · exact Or.inr rfl
       · exact Or.inl hp2)

/-- Any cache entry after the set-phase was present before it or carries
the composed blend mode. -/
theorem applySets_mem_blend (r : Renderer) :
    ∀ (sets : List (TextureId × ImageDelta)) (st : Painter),
      ∀ p ∈ (applySets r st sets).2.1.textures,
        p ∈ st.textures ∨ p.2.blend = eguiBlendMode := by
  intro sets
  induction sets with
  | nil =>
    intro st p hp
    simp only [applySets] at hp
    exact Or.inl hp
  | cons q rest ih =>
    intro st p hp
    obtain ⟨id, d⟩ := q
    simp only [applySets] at hp
    rcases hu : update_or_create_texture r st id d with ⟨o1, st1, tr1⟩
    rw [hu] at hp
    have hm : ∀ x ∈ st1.textures, x ∈ st.textures ∨ x.2.blend = eguiBlendMode := by
      have := upsert_mem_blend r st id d
      rw [hu] at this; exact this
    cases o1 with
    | error e1 => exact hm p hp
    | panic m => exact hm p hp
    | ok u =>
      simp only [] at hp
      rcases ih st1 p hp with h | h
      · exact hm p h
      · exact Or.inr h

/-- Freeing never adds cache entries. -/
theorem free_texture_mem (st : Painter) (id : TextureId) :
    ∀ p ∈ (free_texture st id).2.textures, p ∈ st.textures := by
  intro p hp
  simp only [free_texture, removeTexture] at hp
  rcases hft : findTexture st.textures id with _ | t
  · rw [hft] at hp
    exact hp
  · rw [hft] at hp
    simp only [] at hp
    exact List.mem_of_mem_filter hp

/-- The free-phase never adds cache entries. -/
theorem applyFrees_mem :
    ∀ (ids : List TextureId) (st : Painter),
      ∀ p ∈ (applyFrees st ids).2.1.textures, p ∈ st.textures := by
  intro ids
  induction ids with
  | nil => intro st p hp; simpa [applyFrees] using hp
  | cons id rest ih =>
    intro st p hp
    simp only [applyFrees] at hp
    by_cases hb : (free_texture st id).1 = true
    · simp only [hb, if_true] at hp
      exact free_texture_mem st id p (ih (free_texture st id).2 p hp)
    · simp only [hb, if_false] at hp
      exact free_texture_mem st id p hp

/-- Any cache entry after a whole paint call was present before it or
carries the composed blend mode. -/
theorem paint_mem_blend (r : Renderer) (canvas : Canvas) (scr : Nat × Nat)
    (ppp : ℚ) (prims : List ClippedPrimitive) (delta : TexturesDelta)
    (st : Painter) :
    ∀ p ∈ (paint_and_update_textures r st canvas scr ppp prims delta).2.1.textures,
      p ∈ st.textures ∨ p.2.blend = eguiBlendMode := by
  intro p hp
  unfold paint_and_update_textures at hp
  rcases hs : applySets r st delta.set with ⟨o1, st1, tr1⟩
  rw [hs] at hp
  have hm : ∀ x ∈ st1.textures, x ∈ st.textures ∨ x.2.blend = eguiBlendMode := by
    have := applySets_mem_blend r delta.set st
    rw [hs] at this; exact this
  cases o1 with
  | error e1 => exact hm p hp
  | panic m => exact hm p hp
  | ok u =>
    simp only [] at hp
    rcases hpp : paintPrims r st1 scr ppp canvas prims with ⟨o2, c1, tr2⟩
    rw [hpp] at hp
    cases o2 with
    | error e2 => exact hm p hp
    | panic m => exact hm p hp
    | ok u2 =>
      simp only [] at hp
      exact hm p (applyFrees_mem delta.free st1 p hp)

/-- Every texture of a reachable painter state carries the one composed
blend descriptor. -/
theorem reachable_blend_invariant :
    ∀ (st : Painter), Reachable st →
      ∀ p ∈ st.textures, p.2.blend = eguiBlendMode := by
  intro st h
  induction h with
  | new => intro p hp; simp [Painter.new] at hp
  | upsert r id delta hst ih =>
    intro p hp
    rcases upsert_mem_blend r _ id delta p hp with h1 | h1
    · exact ih p h1
    · exact h1
  | free id hst ih =>
    intro p hp
    exact ih p (free_texture_mem _ id p hp)
  | paint r canvas scr ppp prims delta hst ih =>
    intro p hp
    rcases paint_mem_blend r canvas scr ppp prims delta _ p hp with h1 | h1
    · exact ih p h1
    · exact h1

/-- A successful cache lookup comes from a cache entry. -/
theorem findTexture_mem (ts : List (TextureId × Texture)) (id : TextureId)
    (t : Texture) (h : findTexture ts id = some t) : ∃ a, (a, t) ∈ ts := by
  unfold findTexture at h
  rcases hf : ts.find? (fun p => p.1 == id) with _ | p
  · rw [hf] at h; simp at h
  · rw [hf] at h
    simp at h
    refine ⟨p.1, ?_⟩
    have hmem := List.mem_of_find?_eq_some hf
    rw [← h]
    simpa using hmem

/-- C4: in every painter state reachable through the painter's
operations, any two cached textures carry one and the same blend
descriptor, namely the single composed `eguiBlendMode` — no two upsert
calls derive differing blend descriptors. -/
theorem blend_descriptor_unique (st : Painter) (h : Reachable st)
    (id1 id2 : TextureId) (t1 t2 : Texture)
    (h1 : findTexture st.textures id1 = some t1)
    (h2 : findTexture st.textures id2 = some t2) :
    t1.blend = t2.blend ∧ t1.blend = eguiBlendMode := by
  obtain ⟨a1, hm1⟩ := findTexture_mem st.textures id1 t1 h1
  obtain ⟨a2, hm2⟩ := findTexture_mem st.textures id2 t2 h2
  have e1 := reachable_blend_invariant st h (a1, t1) hm1
  have e2 := reachable_blend_invariant st h (a2, t2) hm2
  exact ⟨e1.trans e2.symm, e1⟩

/-- C4 witness: after creating two textures with two upsert calls on a
fresh painter, both carry the same blend descriptor `eguiBlendMode`. -/
theorem blend_descriptor_unique_witness :
    Texture.blend ⟨1, 1, eguiBlendMode⟩ = Texture.blend ⟨1, 1, eguiBlendMode⟩ ∧
    Texture.blend ⟨1, 1, eguiBlendMode⟩ = eguiBlendMode :=
  blend_descriptor_unique
    (update_or_create_texture Renderer.allOk
      (update_or_create_texture Renderer.allOk Painter.new (.managed 0)
        ⟨⟨1, 1, [⟨0, 0, 0, 0⟩]⟩, none⟩).2.1
      (.managed 3) ⟨⟨1, 1, [⟨0, 0, 0, 0⟩]⟩, none⟩).2.1
    (Reachable.upsert Renderer.allOk (.managed 3) ⟨⟨1, 1, [⟨0, 0, 0, 0⟩]⟩, none⟩
      (Reachable.upsert Renderer.allOk (.managed 0) ⟨⟨1, 1, [⟨0, 0, 0, 0⟩]⟩, none⟩
        Reachable.new))
    (.managed 0) (.managed 3) ⟨1, 1, eguiBlendMode⟩ ⟨1, 1, eguiBlendMode⟩
    (by decide) (by decide)

end EguiSdl2
